import Mathlib

/-
  Verification development for the Leo compiler middle end:
  the scoped symbol table (static-check), the constraint-generation
  entry point, and the field-error taxonomy.

  Rust HashMaps are embedded as association lists with upsert
  semantics (insert returns the prior value at the key, if any);
  mutable-reference methods are embedded in state-passing style,
  returning the updated table together with an optional error, so
  that the table state at an early-return point is preserved.
-/

namespace Leo

abbrev Name := String

/-- Association-list lookup, mirroring HashMap get semantics. -/
def lookupA {α : Type} : List (Name × α) → Name → Option α
  | [], _ => none
  | (k, v) :: rest, n => if n = k then some v else lookupA rest n

/-- Association-list upsert, mirroring HashMap insert: the value bound
at the key is replaced in place, or the pair appended when absent. -/
def insertA {α : Type} : List (Name × α) → Name → α → List (Name × α)
  | [], k, v => [(k, v)]
  | (k0, v0) :: rest, k, v =>
    if k = k0 then (k, v) :: rest else (k0, v0) :: insertA rest k v

theorem lookupA_insertA_self {α : Type} (l : List (Name × α)) (k : Name) (v : α) :
    lookupA (insertA l k v) k = some v := by
  induction l with
  | nil => simp [insertA, lookupA]
  | cons hd tl ih =>
    obtain ⟨k0, v0⟩ := hd
    by_cases h : k = k0 <;> simp [insertA, lookupA, h, ih]

theorem lookupA_insertA_ne {α : Type} (l : List (Name × α)) (k n : Name) (v : α)
    (h : n ≠ k) : lookupA (insertA l k v) n = lookupA l n := by
  induction l with
  | nil => simp [insertA, lookupA, h]
  | cons hd tl ih =>
    obtain ⟨k0, v0⟩ := hd
    by_cases hk : k = k0
    · subst hk
      simp [insertA, lookupA, h]
    · by_cases hn : n = k0 <;> simp [insertA, lookupA, hk, hn, ih]

/-- Identifiers are compared by name (spans are not modelled). -/
structure Identifier where
  name : Name
deriving DecidableEq, Repr

def Identifier.new (name : Name) : Identifier := ⟨name⟩

/-- A declared member type reference: a primitive type or a reference
to a circuit by name. -/
inductive TypeName where
  | prim (n : Name)
  | named (n : Name)
deriving DecidableEq, Repr

/-- Unresolved circuit definition from the AST: its name and its
member variables with their declared types. -/
structure Circuit where
  circuit_name : Identifier
  members : List (Name × TypeName)
deriving DecidableEq, Repr

/-- Unresolved function definition from the AST: its name, its
parameter types and its declared return type. -/
structure Function where
  identifier : Identifier
  input : List TypeName
  returns : TypeName
deriving DecidableEq, Repr

/-- Post-resolution type of a member or parameter. -/
inductive ResolvedType where
  | prim (n : Name)
  | circuit (n : Name)
deriving DecidableEq, Repr

/-- Resolved circuit member variable: its name and resolved type. -/
structure CircuitVariableType where
  identifier : Name
  type0 : ResolvedType
deriving DecidableEq, Repr

/-- Resolved function type: identifier, parameter types, return type. -/
structure FunctionType where
  identifier : Identifier
  input : List ResolvedType
  returns : ResolvedType
deriving DecidableEq, Repr

/-- Resolved circuit type: identifier, ordered member variables and
member function types. -/
structure CircuitType where
  identifier : Identifier
  vars : List CircuitVariableType
  functions : List FunctionType
deriving DecidableEq, Repr

/-- Post-resolution type of any name: built from an unresolved circuit
or function definition, or a primitive. -/
inductive ParameterType where
  | circuit (c : Circuit)
  | function (f : Function)
  | prim (n : Name)
deriving DecidableEq, Repr

/-- Error taxonomy of the symbol-table pass. Duplicate errors carry
the colliding prior type; unknown-symbol errors carry the symbol and
program names; the recursionLimit variant models exhaustion of the
fuel that bounds recursion through transitively imported programs. -/
inductive SymbolTableError where
  | duplicate_circuit (prior : ParameterType)
  | duplicate_function (prior : ParameterType)
  | unknown_symbol (symbol : Name) (program : Name)
  | unknown_package (package : Name)
  | unknown_type (type0 : Name)
  | recursionLimit
deriving DecidableEq, Repr

/-- A symbol table level: names, circuits and functions maps plus an
optional parent table. The optional boxed parent of the source struct
is embedded as two constructors, root (no parent) and child (with
parent), which is isomorphic and gives structural recursion through
the parent link. -/
inductive SymbolTable where
  | root (names : List (Name × ParameterType))
         (circuits : List (Name × CircuitType))
         (functions : List (Name × FunctionType))
  | child (names : List (Name × ParameterType))
          (circuits : List (Name × CircuitType))
          (functions : List (Name × FunctionType))
          (parent : SymbolTable)

/-- Builds a table level from its three maps and optional parent. -/
def SymbolTable.mk (ns : List (Name × ParameterType)) (cs : List (Name × CircuitType))
    (fs : List (Name × FunctionType)) : Option SymbolTable → SymbolTable
  | none => .root ns cs fs
  | some p => .child ns cs fs p

def SymbolTable.names : SymbolTable → List (Name × ParameterType)
  | .root ns _ _ => ns
  | .child ns _ _ _ => ns

def SymbolTable.circuitsMap : SymbolTable → List (Name × CircuitType)
  | .root _ cs _ => cs
  | .child _ cs _ _ => cs

def SymbolTable.functionsMap : SymbolTable → List (Name × FunctionType)
  | .root _ _ fs => fs
  | .child _ _ fs _ => fs

def SymbolTable.parent : SymbolTable → Option SymbolTable
  | .root _ _ _ => none
  | .child _ _ _ p => some p

def SymbolTable.new (parent : Option SymbolTable) : SymbolTable :=
  .mk [] [] [] parent

/-- Replaces the three maps of a level, keeping its parent. -/
def SymbolTable.withMaps (st : SymbolTable) (ns : List (Name × ParameterType))
    (cs : List (Name × CircuitType)) (fs : List (Name × FunctionType)) : SymbolTable :=
  match st with
  | .root _ _ _ => .root ns cs fs
  | .child _ _ _ p => .child ns cs fs p

/-- Unconditional upsert of a name at the current level, returning the
prior bound type when the name was present. -/
def SymbolTable.insert_name (st : SymbolTable) (name : Name)
    (variable_type : ParameterType) : SymbolTable × Option ParameterType :=
  (st.withMaps (insertA st.names name variable_type) st.circuitsMap st.functionsMap,
   lookupA st.names name)

/-- Inserts a circuit name, failing with a duplicate-circuit error
carrying the prior type when the name was already present. -/
def SymbolTable.insert_circuit_name (st : SymbolTable) (name : Name)
    (variable_type : ParameterType) : SymbolTable × Option SymbolTableError :=
  match st.insert_name name variable_type with
  | (st1, some duplicate) => (st1, some (.duplicate_circuit duplicate))
  | (st1, none) => (st1, none)

/-- Inserts a function name, failing with a duplicate-function error
carrying the prior type when the name was already present. -/
def SymbolTable.insert_function_name (st : SymbolTable) (name : Name)
    (variable_type : ParameterType) : SymbolTable × Option SymbolTableError :=
  match st.insert_name name variable_type with
  | (st1, some duplicate) => (st1, some (.duplicate_function duplicate))
  | (st1, none) => (st1, none)

/-- Upsert of a circuit definition under its identifier name. -/
def SymbolTable.insert_circuit (st : SymbolTable) (identifier : Identifier)
    (circuit_type : CircuitType) : SymbolTable :=
  st.withMaps st.names (insertA st.circuitsMap identifier.name circuit_type) st.functionsMap

/-- Upsert of a function definition under its identifier name. -/
def SymbolTable.insert_function (st : SymbolTable) (identifier : Identifier)
    (function_type : FunctionType) : SymbolTable :=
  st.withMaps st.names st.circuitsMap (insertA st.functionsMap identifier.name function_type)

/-- Variable lookup: current level only, never the parent. -/
def SymbolTable.get_variable (st : SymbolTable) (name : Name) : Option ParameterType :=
  match lookupA st.names name with
  | some variable0 => some variable0
  | none => none

/-- Circuit lookup: current level, then recursively the parent. -/
def SymbolTable.get_circuit : SymbolTable → Name → Option CircuitType
  | .root _ cs _, name =>
    (match lookupA cs name with
     | some circuit => some circuit
     | none => none)
  | .child _ cs _ par, name =>
    match lookupA cs name with
    | some circuit => some circuit
    | none => par.get_circuit name

/-- Function lookup: current level, then recursively the parent. -/
def SymbolTable.get_function : SymbolTable → Name → Option FunctionType
  | .root _ _ fs, key =>
    (match lookupA fs key with
     | some circuit => some circuit
     | none => none)
  | .child _ _ fs par, key =>
    match lookupA fs key with
    | some circuit => some circuit
    | none => par.get_function key

/-- An imported symbol: the symbol being imported, and an optional
alias; a star import is spelled with the symbol name star. -/
structure ImportSymbol where
  symbol : Identifier
  alias0 : Option Identifier
deriving DecidableEq, Repr

def ImportSymbol.is_star (s : ImportSymbol) : Bool := s.symbol.name = "*"

/-- Modelled from the spec: the `ImportStatement` AST node together
with the output of the missing `ImportedSymbols::from` conversion,
carried directly as the list of (module name, symbol) pairs the
statement references. -/
structure ImportStatement where
  package : Name
  symbols : List (Name × ImportSymbol)
deriving DecidableEq, Repr

/-- Modelled from the spec: `ImportedSymbols::from(import)` extracts
the imported (module name, symbol) pairs of an import statement. -/
def ImportedSymbols.from (import0 : ImportStatement) : List (Name × ImportSymbol) :=
  import0.symbols

/-- A parsed program: name, imports, circuit and function definitions
keyed by identifier. -/
structure Program where
  name : Name
  imports : List ImportStatement
  circuits : List (Identifier × Circuit)
  functions : List (Identifier × Function)
deriving DecidableEq, Repr

/-- Modelled from the spec: a core package resolved to its list of
built-in circuit symbols (the missing `CorePackageList::to_symbols`
output). -/
structure Package where
  symbols : List (Name × Circuit)
deriving DecidableEq, Repr

/-- Modelled from the spec: the `ImportParser` collaborator, an opaque
name-to-program and name-to-core-package source. -/
structure ImportParser where
  imports : List (Name × Program)
  core_packages : List (Name × Package)
deriving DecidableEq, Repr

def ImportParser.get_import (ip : ImportParser) (name : Name) : Option Program :=
  lookupA ip.imports name

def ImportParser.get_core_package (ip : ImportParser) (package : Name) : Option Package :=
  lookupA ip.core_packages package

def INPUT_VARIABLE_NAME : Name := "input"
def RECORD_VARIABLE_NAME : Name := "record"
def REGISTERS_VARIABLE_NAME : Name := "registers"
def STATE_VARIABLE_NAME : Name := "state"
def STATE_LEAF_VARIABLE_NAME : Name := "state_leaf"

/-- Modelled from the spec: resolution of a declared member type
reference, failing with an unknown-type error when a named type does
not resolve to a declared circuit. -/
def resolveTypeName (st : SymbolTable) : TypeName → Except SymbolTableError ResolvedType
  | .prim n => .ok (.prim n)
  | .named n =>
    match st.get_circuit n with
    | some _ => .ok (.circuit n)
    | none => .error (.unknown_type n)

/-- Modelled from the spec: resolution of a list of member variables,
failing at the first member whose declared type is undeclared. -/
def resolveVars (st : SymbolTable) :
    List (Name × TypeName) → Except SymbolTableError (List CircuitVariableType)
  | [] => .ok []
  | m :: rest =>
    match resolveTypeName st m.2 with
    | .error e => .error e
    | .ok rt =>
      match resolveVars st rest with
      | .error e => .error e
      | .ok vars => .ok (⟨m.1, rt⟩ :: vars)

/-- Modelled from the spec: resolution of a list of type references,
failing at the first undeclared one. -/
def resolveTypes (st : SymbolTable) :
    List TypeName → Except SymbolTableError (List ResolvedType)
  | [] => .ok []
  | t :: rest =>
    match resolveTypeName st t with
    | .error e => .error e
    | .ok rt =>
      match resolveTypes st rest with
      | .error e => .error e
      | .ok rts => .ok (rt :: rts)

/-- Modelled from the spec: the missing `CircuitType::new`, which
builds a circuit full type once all names in scope are known, failing
when a member type references an undeclared name. Member functions are
not modelled. -/
def CircuitType.new (st : SymbolTable) (c : Circuit) : Except SymbolTableError CircuitType :=
  match resolveVars st c.members with
  | .error e => .error e
  | .ok vars => .ok ⟨c.circuit_name, vars, []⟩

/-- Modelled from the spec: the missing `FunctionType::new`, which
builds a function full type once all names in scope are known, failing
when a parameter or return type references an undeclared name. -/
def FunctionType.new (st : SymbolTable) (f : Function) : Except SymbolTableError FunctionType :=
  match resolveTypes st f.input with
  | .error e => .error e
  | .ok ins =>
    match resolveTypeName st f.returns with
    | .error e => .error e
    | .ok ret => .ok ⟨f.identifier, ins, ret⟩

/-- Modelled from the spec: the external `Input` collaborator with the
four per-section value lists (each a list of variable name and
declared type). -/
structure Input where
  registers : List (Name × TypeName)
  record : List (Name × TypeName)
  state : List (Name × TypeName)
  state_leaf : List (Name × TypeName)
deriving DecidableEq, Repr

/-- Modelled from the spec: the missing
`CircuitType::from_input_section`, which derives a circuit type named
after the section from the per-section values, failing with an
unknown-type error when a declared member type is undeclared. -/
def CircuitType.from_input_section (st : SymbolTable) (name : Name)
    (values : List (Name × TypeName)) : Except SymbolTableError CircuitType :=
  match resolveVars st values with
  | .error e => .error e
  | .ok vars => .ok ⟨Identifier.new name, vars, []⟩

/-- Modelled from the spec: the missing `CircuitVariableType::from`
conversion, viewing a circuit type as a member variable of that
circuit type. -/
def CircuitVariableType.from0 (c : CircuitType) : CircuitVariableType :=
  ⟨c.identifier.name, .circuit c.identifier.name⟩

/-- Inserts the five input circuit types (registers, record, state,
state leaf and the aggregating input circuit) into the table. The four
per-section types are built first; an error from any of them is
returned with the table untouched. -/
def SymbolTable.insert_input (st : SymbolTable) (input : Input) :
    SymbolTable × Option SymbolTableError :=
  match CircuitType.from_input_section st REGISTERS_VARIABLE_NAME input.registers with
  | .error e => (st, some e)
  | .ok registers_type =>
  match CircuitType.from_input_section st RECORD_VARIABLE_NAME input.record with
  | .error e => (st, some e)
  | .ok record_type =>
  match CircuitType.from_input_section st STATE_VARIABLE_NAME input.state with
  | .error e => (st, some e)
  | .ok state_type =>
  match CircuitType.from_input_section st STATE_LEAF_VARIABLE_NAME input.state_leaf with
  | .error e => (st, some e)
  | .ok state_leaf_type =>
    let input_type : CircuitType :=
      ⟨Identifier.new INPUT_VARIABLE_NAME,
        [CircuitVariableType.from0 registers_type, CircuitVariableType.from0 record_type,
         CircuitVariableType.from0 state_type, CircuitVariableType.from0 state_leaf_type],
        []⟩
    let st := st.insert_circuit registers_type.identifier registers_type
    let st := st.insert_circuit record_type.identifier record_type
    let st := st.insert_circuit state_type.identifier state_type
    let st := st.insert_circuit state_leaf_type.identifier state_leaf_type
    let st := st.insert_circuit input_type.identifier input_type
    (st, none)

/-- Checks a list of circuit definitions for duplicate names,
inserting each name; stops at the first duplicate. -/
def SymbolTable.check_duplicate_circuits :
    SymbolTable → List (Identifier × Circuit) → SymbolTable × Option SymbolTableError
  | st, [] => (st, none)
  | st, (identifier, circuit) :: rest =>
    match st.insert_circuit_name identifier.name (.circuit circuit) with
    | (st1, some e) => (st1, some e)
    | (st1, none) => st1.check_duplicate_circuits rest

/-- Checks a list of function definitions for duplicate names,
inserting each name; stops at the first duplicate. -/
def SymbolTable.check_duplicate_functions :
    SymbolTable → List (Identifier × Function) → SymbolTable × Option SymbolTableError
  | st, [] => (st, none)
  | st, (identifier, function0) :: rest =>
    match st.insert_function_name identifier.name (.function function0) with
    | (st1, some e) => (st1, some e)
    | (st1, none) => st1.check_duplicate_functions rest

/-- Inserts an imported symbol: a star import inserts every circuit
and function name of the target program; a single symbol is searched
among the target circuits first, then its functions, and inserted
under its alias when one is given; an unmatched name is an
unknown-symbol error. -/
def SymbolTable.insert_import_symbol (st : SymbolTable) (symbol : ImportSymbol)
    (program : Program) : SymbolTable × Option SymbolTableError :=
  if symbol.is_star then
    match st.check_duplicate_circuits program.circuits with
    | (st1, some e) => (st1, some e)
    | (st1, none) => st1.check_duplicate_functions program.functions
  else
    let identifier := symbol.alias0.getD symbol.symbol
    let matched_circuit := program.circuits.find? (fun p => symbol.symbol = p.1)
    match matched_circuit with
    | some (_, circuit) =>
      st.insert_circuit_name identifier.name (.circuit circuit)
    | none =>
      let matched_function := program.functions.find? (fun p => symbol.symbol = p.1)
      match matched_function with
      | some (_, function0) =>
        st.insert_function_name identifier.name (.function function0)
      | none => (st, some (.unknown_symbol symbol.symbol.name program.name))

/-- Checks circuit definitions for unknown types, inserting each full
circuit type; stops at the first unknown type. -/
def SymbolTable.check_unknown_types_circuits :
    SymbolTable → List (Identifier × Circuit) → SymbolTable × Option SymbolTableError
  | st, [] => (st, none)
  | st, (_, circuit) :: rest =>
    match CircuitType.new st circuit with
    | .error e => (st, some e)
    | .ok circuit_type =>
      (st.insert_circuit circuit.circuit_name circuit_type).check_unknown_types_circuits rest

/-- Checks function definitions for unknown types, inserting each full
function type; stops at the first unknown type. -/
def SymbolTable.check_unknown_types_functions :
    SymbolTable → List (Identifier × Function) → SymbolTable × Option SymbolTableError
  | st, [] => (st, none)
  | st, (_, function0) :: rest =>
    match FunctionType.new st function0 with
    | .error e => (st, some e)
    | .ok function_type =>
      (st.insert_function function0.identifier function_type).check_unknown_types_functions rest

/-- Checks a program for unknown types in circuit definitions, then in
function definitions. -/
def SymbolTable.check_unknown_types_program (st : SymbolTable) (program : Program) :
    SymbolTable × Option SymbolTableError :=
  match st.check_unknown_types_circuits program.circuits with
  | (st1, some e) => (st1, some e)
  | (st1, none) => st1.check_unknown_types_functions program.functions

/-- Inserts core package name and type information for each symbol of
a resolved core package. -/
def SymbolTable.insert_core_package_symbols :
    SymbolTable → List (Name × Circuit) → SymbolTable × Option SymbolTableError
  | st, [] => (st, none)
  | st, (name, circuit) :: rest =>
    match st.insert_circuit_name name (.circuit circuit) with
    | (st1, some e) => (st1, some e)
    | (st1, none) =>
      match CircuitType.new st1 circuit with
      | .error e => (st1, some e)
      | .ok circuit_type =>
        (st1.insert_circuit circuit_type.identifier circuit_type).insert_core_package_symbols rest

/-- Inserts a core package: resolves the package to its symbol list
and inserts each name and circuit type. -/
def SymbolTable.insert_core_package (st : SymbolTable) (package : Package) :
    SymbolTable × Option SymbolTableError :=
  st.insert_core_package_symbols package.symbols

/-
  The import-checking operations recurse through transitively imported
  programs (insert_import fetches a program and duplicate-checks it,
  which in turn checks that program's own imports). The recursion depth
  through fetched programs is bounded by an explicit fuel parameter;
  exhausting it yields the recursionLimit error, which models
  non-termination of the source on cyclic imports. Theorems supply
  enough fuel for the programs they mention.
-/
mutual

/-- Checks a program for duplicates: its imports first, then its
circuit names, then its function names. -/
def SymbolTable.check_duplicate_program (fuel : Nat) (st : SymbolTable)
    (program : Program) (ip : ImportParser) : SymbolTable × Option SymbolTableError :=
  match SymbolTable.check_imports fuel st program.imports ip with
  | (st1, some e) => (st1, some e)
  | (st1, none) =>
    match st1.check_duplicate_circuits program.circuits with
    | (st2, some e) => (st2, some e)
    | (st2, none) => st2.check_duplicate_functions program.functions
termination_by (fuel, 3, 0)

/-- Checks each import statement of a list in order. -/
def SymbolTable.check_imports (fuel : Nat) (st : SymbolTable)
    (imports : List ImportStatement) (ip : ImportParser) :
    SymbolTable × Option SymbolTableError :=
  match imports with
  | [] => (st, none)
  | import0 :: rest =>
    match SymbolTable.check_import fuel st import0 ip with
    | (st1, some e) => (st1, some e)
    | (st1, none) => SymbolTable.check_imports fuel st1 rest ip
termination_by (fuel, 2, imports.length)

/-- Checks one import statement: a core package is inserted directly,
anything else goes through insert_import. -/
def SymbolTable.check_import (fuel : Nat) (st : SymbolTable)
    (import0 : ImportStatement) (ip : ImportParser) :
    SymbolTable × Option SymbolTableError :=
  match ip.get_core_package import0.package with
  | some package => st.insert_core_package package
  | none => SymbolTable.insert_import fuel st import0 ip
termination_by (fuel, 1, 0)

/-- Inserts one or more imported symbols for an import statement: each
distinct module is fetched (unknown-package error when absent),
duplicate-checked and unknown-type-checked; a module already checked
under one alias is skipped. The insertion of the imported symbol
itself is skipped, mirroring the commented-out insert_import_symbol
call in the source. -/
def SymbolTable.insert_import (fuel : Nat) (st : SymbolTable)
    (import0 : ImportStatement) (ip : ImportParser) :
    SymbolTable × Option SymbolTableError :=
  SymbolTable.insert_import_loop fuel st [] (ImportedSymbols.from import0) ip
termination_by (fuel, 0, (ImportedSymbols.from import0).length + 1)

/-- Iteration of insert_import over the imported symbols, with the
list of already checked module names. -/
def SymbolTable.insert_import_loop (fuel : Nat) (st : SymbolTable)
    (checked : List Name) (symbols : List (Name × ImportSymbol)) (ip : ImportParser) :
    SymbolTable × Option SymbolTableError :=
  match symbols with
  | [] => (st, none)
  | (name, _symbol) :: rest =>
    if name ∈ checked then SymbolTable.insert_import_loop fuel st checked rest ip
    else
      match ip.get_import name with
      | none => (st, some (.unknown_package name))
      | some program =>
        match fuel with
        | 0 => (st, some .recursionLimit)
        | fuel0 + 1 =>
          match SymbolTable.check_duplicate_program fuel0 st program ip with
          | (st1, some e) => (st1, some e)
          | (st1, none) =>
            match st1.check_unknown_types_program program with
            | (st2, some e) => (st2, some e)
            | (st2, none) =>
              SymbolTable.insert_import_loop (fuel0 + 1) st2 (name :: checked) rest ip
termination_by (fuel, 0, symbols.length)

end

/-- Modelled from the spec: an input value supplied for a declared
entry-function parameter (boolean, width-tagged integer, field or
group element). -/
inductive InputValue where
  | boolean (b : Bool)
  | integer (width : Nat) (v : Nat)
  | fieldElem (v : Nat)
  | group (v : Nat)
deriving DecidableEq, Repr

/-- Modelled from the spec: the tagged-union of intermediate computed
values; only the variants the entry point distinguishes are spelled
out, the rest are representative. -/
inductive ConstrainedValue where
  | Function (circuit_identifier : Option Identifier) (function0 : Function)
  | CircuitDefinition (c : Circuit)
  | Boolean (b : Bool)
  | FieldElement (v : Nat)
deriving DecidableEq, Repr

/-- Top-level compiler errors: the missing-main cases plus wrapped
submodule errors. -/
inductive CompilerError where
  | NoMain
  | NoMainFunction
  | Wrapped (msg : Name)
deriving DecidableEq, Repr

/-- Modelled from the spec: scope-qualified name concatenation. -/
def new_scope (outer inner : Name) : Name := outer ++ "::" ++ inner

/-- Flat mapping from scope-qualified name to constrained value. -/
abbrev ConstrainedProgram := List (Name × ConstrainedValue)

def ConstrainedProgram.new : ConstrainedProgram := []

def ConstrainedProgram.get (rp : ConstrainedProgram) (name : Name) :
    Option ConstrainedValue :=
  lookupA rp name

/-- Modelled from the spec: the missing `resolve_definitions`, which
inserts every circuit and function definition of the program into the
flat namespace under its scope-qualified name and emits no
constraints. -/
def ConstrainedProgram.resolve_definitions (rp : ConstrainedProgram)
    (program : Program) : Except CompilerError ConstrainedProgram :=
  let rp1 := program.circuits.foldl
    (fun acc p => insertA acc (new_scope program.name p.1.name) (.CircuitDefinition p.2)) rp
  let rp2 := program.functions.foldl
    (fun acc p => insertA acc (new_scope program.name p.1.name) (.Function none p.2)) rp1
  .ok rp2

/-- Entry point of constraint generation: resolves all definitions
into the flat map, looks up the qualified main name, fails with NoMain
or NoMainFunction, and otherwise hands off to the (externally defined)
enforce_main_function, supplied here as an argument since its body
lives outside the embedded sources. The constraint sink is threaded
explicitly through the CS state. -/
def generate_constraints {CS : Type}
    (enforce_main_function : ConstrainedProgram → CS → Name → Function →
      List (Option InputValue) → Except CompilerError (ConstrainedValue × CS))
    (cs : CS) (program : Program) (parameters : List (Option InputValue)) :
    Except CompilerError (ConstrainedValue × CS) :=
  let resolved_program := ConstrainedProgram.new
  let program_name := program.name
  let main_function_name := new_scope program_name "main"
  match resolved_program.resolve_definitions program with
  | .error e => .error e
  | .ok resolved_program =>
    match resolved_program.get main_function_name with
    | none => .error CompilerError.NoMain
    | some main =>
      match main with
      | .Function _circuit_identifier function0 =>
        enforce_main_function resolved_program cs program_name function0 parameters
      | _ => .error CompilerError.NoMainFunction

/-- Error taxonomy of the field constraint helpers. -/
inductive FieldError where
  | Invalid (s : String)
  | NoInverse (s : String)
  | SynthesisError (s : String)
deriving DecidableEq, Repr

/-- A rank-1 constraint over a field, asserting that the product of
the first two entries equals the third. -/
abbrev R1Constraint (F : Type) : Type := F × F × F

/-- Modelled from the spec: the missing field inversion helper. On the
additive identity it fails with NoInverse; on any other element it
returns the inverse and appends the constraint asserting that the
operand times the inverse equals the multiplicative identity. -/
def field_inverse {F : Type} [Field F] [DecidableEq F]
    (cs : List (R1Constraint F)) (fe : F) :
    Except FieldError (F × List (R1Constraint F)) :=
  if fe = 0 then .error (.NoInverse "zero")
  else .ok (fe⁻¹, cs ++ [(fe, fe⁻¹, 1)])

/-
  Lemma layer: basic shape lemmas about the table operations, a
  generic treatment of the duplicate-checking loops, and preservation
  lemmas for the unknown-type checking loops.
-/

theorem lookupA_insertA_isSome {α : Type} (l : List (Name × α)) (k n : Name) (v : α)
    (h : (lookupA l n).isSome) : (lookupA (insertA l k v) n).isSome := by
  by_cases hk : n = k
  · subst hk
    simp [lookupA_insertA_self]
  · rw [lookupA_insertA_ne l k n v hk]
    exact h

theorem insert_name_eq (st : SymbolTable) (n : Name) (t : ParameterType) :
    st.insert_name n t =
      (.mk (insertA st.names n t) st.circuitsMap st.functionsMap st.parent,
       lookupA st.names n) := by
  cases st <;> rfl

theorem insert_circuit_name_eq (st : SymbolTable) (n : Name) (t : ParameterType) :
    st.insert_circuit_name n t =
      (.mk (insertA st.names n t) st.circuitsMap st.functionsMap st.parent,
       Option.map SymbolTableError.duplicate_circuit (lookupA st.names n)) := by
  unfold SymbolTable.insert_circuit_name
  rw [insert_name_eq]
  cases lookupA st.names n <;> simp

theorem insert_function_name_eq (st : SymbolTable) (n : Name) (t : ParameterType) :
    st.insert_function_name n t =
      (.mk (insertA st.names n t) st.circuitsMap st.functionsMap st.parent,
       Option.map SymbolTableError.duplicate_function (lookupA st.names n)) := by
  unfold SymbolTable.insert_function_name
  rw [insert_name_eq]
  cases lookupA st.names n <;> simp

theorem insert_circuit_eq (st : SymbolTable) (i : Identifier) (c : CircuitType) :
    st.insert_circuit i c =
      .mk st.names (insertA st.circuitsMap i.name c) st.functionsMap st.parent := by
  cases st <;> rfl

theorem insert_function_eq (st : SymbolTable) (i : Identifier) (f : FunctionType) :
    st.insert_function i f =
      .mk st.names st.circuitsMap (insertA st.functionsMap i.name f) st.parent := by
  cases st <;> rfl

/-- Generic form of the duplicate-checking loops: walk a list of
(name, type) pairs, inserting each name and stopping at the first
prior binding with the given error constructor. -/
def checkDupNames (err : ParameterType → SymbolTableError) :
    SymbolTable → List (Name × ParameterType) → SymbolTable × Option SymbolTableError
  | st, [] => (st, none)
  | st, (n, t) :: rest =>
    match lookupA st.names n with
    | some d => ((st.insert_name n t).1, some (err d))
    | none => checkDupNames err (st.insert_name n t).1 rest

theorem check_duplicate_circuits_eq (st : SymbolTable) (l : List (Identifier × Circuit)) :
    st.check_duplicate_circuits l =
      checkDupNames SymbolTableError.duplicate_circuit st
        (l.map (fun p => (p.1.name, ParameterType.circuit p.2))) := by
  induction l generalizing st with
  | nil => rfl
  | cons hd tl ih =>
    obtain ⟨i, c⟩ := hd
    rw [SymbolTable.check_duplicate_circuits, List.map_cons, checkDupNames,
      insert_circuit_name_eq, insert_name_eq]
    cases h : lookupA st.names i.name <;> simp [h, ih]

theorem check_duplicate_functions_eq (st : SymbolTable) (l : List (Identifier × Function)) :
    st.check_duplicate_functions l =
      checkDupNames SymbolTableError.duplicate_function st
        (l.map (fun p => (p.1.name, ParameterType.function p.2))) := by
  induction l generalizing st with
  | nil => rfl
  | cons hd tl ih =>
    obtain ⟨i, f⟩ := hd
    rw [SymbolTable.check_duplicate_functions, List.map_cons, checkDupNames,
      insert_function_name_eq, insert_name_eq]
    cases h : lookupA st.names i.name <;> simp [h, ih]

theorem names_mk (ns : List (Name × ParameterType)) (cs : List (Name × CircuitType))
    (fs : List (Name × FunctionType)) (p : Option SymbolTable) :
    (SymbolTable.mk ns cs fs p).names = ns := by cases p <;> rfl

theorem circuitsMap_mk (ns : List (Name × ParameterType)) (cs : List (Name × CircuitType))
    (fs : List (Name × FunctionType)) (p : Option SymbolTable) :
    (SymbolTable.mk ns cs fs p).circuitsMap = cs := by cases p <;> rfl

theorem functionsMap_mk (ns : List (Name × ParameterType)) (cs : List (Name × CircuitType))
    (fs : List (Name × FunctionType)) (p : Option SymbolTable) :
    (SymbolTable.mk ns cs fs p).functionsMap = fs := by cases p <;> rfl

theorem parent_mk (ns : List (Name × ParameterType)) (cs : List (Name × CircuitType))
    (fs : List (Name × FunctionType)) (p : Option SymbolTable) :
    (SymbolTable.mk ns cs fs p).parent = p := by cases p <;> rfl

/-- The table reached by one upsert step of the duplicate check. -/
def stepIns (st : SymbolTable) (n : Name) (t : ParameterType) : SymbolTable :=
  SymbolTable.mk (insertA st.names n t) st.circuitsMap st.functionsMap st.parent

theorem checkDupNames_cons_some (err : ParameterType → SymbolTableError)
    (st : SymbolTable) (n : Name) (t : ParameterType) (tl : List (Name × ParameterType))
    (d : ParameterType) (h : lookupA st.names n = some d) :
    checkDupNames err st ((n, t) :: tl) = (stepIns st n t, some (err d)) := by
  rw [checkDupNames, h, insert_name_eq]
  rfl

theorem checkDupNames_cons_none (err : ParameterType → SymbolTableError)
    (st : SymbolTable) (n : Name) (t : ParameterType) (tl : List (Name × ParameterType))
    (h : lookupA st.names n = none) :
    checkDupNames err st ((n, t) :: tl) = checkDupNames err (stepIns st n t) tl := by
  rw [checkDupNames, h, insert_name_eq]
  rfl

theorem stepIns_names (st : SymbolTable) (n : Name) (t : ParameterType) :
    (stepIns st n t).names = insertA st.names n t := by cases st <;> rfl

theorem stepIns_circuitsMap (st : SymbolTable) (n : Name) (t : ParameterType) :
    (stepIns st n t).circuitsMap = st.circuitsMap := by cases st <;> rfl

theorem stepIns_functionsMap (st : SymbolTable) (n : Name) (t : ParameterType) :
    (stepIns st n t).functionsMap = st.functionsMap := by cases st <;> rfl

theorem stepIns_parent (st : SymbolTable) (n : Name) (t : ParameterType) :
    (stepIns st n t).parent = st.parent := by cases st <;> rfl

theorem insert_circuit_names (st : SymbolTable) (i : Identifier) (c : CircuitType) :
    (st.insert_circuit i c).names = st.names := by cases st <;> rfl

theorem insert_circuit_circuitsMap (st : SymbolTable) (i : Identifier) (c : CircuitType) :
    (st.insert_circuit i c).circuitsMap = insertA st.circuitsMap i.name c := by
  cases st <;> rfl

theorem insert_circuit_functionsMap (st : SymbolTable) (i : Identifier) (c : CircuitType) :
    (st.insert_circuit i c).functionsMap = st.functionsMap := by cases st <;> rfl

theorem insert_circuit_parent (st : SymbolTable) (i : Identifier) (c : CircuitType) :
    (st.insert_circuit i c).parent = st.parent := by cases st <;> rfl

theorem insert_function_names (st : SymbolTable) (i : Identifier) (f : FunctionType) :
    (st.insert_function i f).names = st.names := by cases st <;> rfl

theorem insert_function_circuitsMap (st : SymbolTable) (i : Identifier) (f : FunctionType) :
    (st.insert_function i f).circuitsMap = st.circuitsMap := by cases st <;> rfl

theorem insert_function_functionsMap (st : SymbolTable) (i : Identifier) (f : FunctionType) :
    (st.insert_function i f).functionsMap = insertA st.functionsMap i.name f := by
  cases st <;> rfl

theorem insert_function_parent (st : SymbolTable) (i : Identifier) (f : FunctionType) :
    (st.insert_function i f).parent = st.parent := by cases st <;> rfl

theorem checkDupNames_shape (err : ParameterType → SymbolTableError)
    (st : SymbolTable) (l : List (Name × ParameterType)) :
    (checkDupNames err st l).1.circuitsMap = st.circuitsMap ∧
    (checkDupNames err st l).1.functionsMap = st.functionsMap ∧
    (checkDupNames err st l).1.parent = st.parent := by
  induction l generalizing st with
  | nil => exact ⟨rfl, rfl, rfl⟩
  | cons hd tl ih =>
    obtain ⟨n, t⟩ := hd
    cases h : lookupA st.names n with
    | some d =>
      rw [checkDupNames_cons_some err st n t tl d h]
      exact ⟨stepIns_circuitsMap st n t, stepIns_functionsMap st n t, stepIns_parent st n t⟩
    | none =>
      rw [checkDupNames_cons_none err st n t tl h]
      obtain ⟨h1, h2, h3⟩ := ih (stepIns st n t)
      exact ⟨h1.trans (stepIns_circuitsMap st n t),
             h2.trans (stepIns_functionsMap st n t),
             h3.trans (stepIns_parent st n t)⟩

theorem checkDupNames_preserve_other (err : ParameterType → SymbolTableError)
    (st : SymbolTable) (l : List (Name × ParameterType)) (n : Name)
    (h : n ∉ l.map Prod.fst) :
    lookupA (checkDupNames err st l).1.names n = lookupA st.names n := by
  induction l generalizing st with
  | nil => rfl
  | cons hd tl ih =>
    obtain ⟨m, t⟩ := hd
    simp only [List.map_cons, List.mem_cons, not_or] at h
    cases hm : lookupA st.names m with
    | some d =>
      rw [checkDupNames_cons_some err st m t tl d hm, stepIns_names,
        lookupA_insertA_ne st.names m n t h.1]
    | none =>
      rw [checkDupNames_cons_none err st m t tl hm, ih (stepIns st m t) h.2,
        stepIns_names, lookupA_insertA_ne st.names m n t h.1]

theorem checkDupNames_mono_isSome (err : ParameterType → SymbolTableError)
    (st : SymbolTable) (l : List (Name × ParameterType)) (n : Name)
    (h : (lookupA st.names n).isSome) :
    (lookupA (checkDupNames err st l).1.names n).isSome := by
  induction l generalizing st with
  | nil => exact h
  | cons hd tl ih =>
    obtain ⟨m, t⟩ := hd
    cases hm : lookupA st.names m with
    | some d =>
      rw [checkDupNames_cons_some err st m t tl d hm, stepIns_names]
      exact lookupA_insertA_isSome st.names m n t h
    | none =>
      rw [checkDupNames_cons_none err st m t tl hm]
      exact ih (stepIns st m t)
        (by rw [stepIns_names]; exact lookupA_insertA_isSome st.names m n t h)

theorem checkDupNames_ok_mem_isSome (err : ParameterType → SymbolTableError)
    (st : SymbolTable) (l : List (Name × ParameterType)) (n : Name)
    (hok : (checkDupNames err st l).2 = none) (hn : n ∈ l.map Prod.fst) :
    (lookupA (checkDupNames err st l).1.names n).isSome := by
  induction l generalizing st with
  | nil => simp at hn
  | cons hd tl ih =>
    obtain ⟨m, t⟩ := hd
    cases hm : lookupA st.names m with
    | some d =>
      rw [checkDupNames_cons_some err st m t tl d hm] at hok
      exact absurd hok (by simp)
    | none =>
      rw [checkDupNames_cons_none err st m t tl hm] at hok ⊢
      simp only [List.map_cons, List.mem_cons] at hn
      rcases hn with hn | hn
      · subst hn
        exact checkDupNames_mono_isSome err (stepIns st n t) tl n
          (by rw [stepIns_names, lookupA_insertA_self]; rfl)
      · exact ih (stepIns st m t) hok hn

theorem checkDupNames_snd_none_iff (err : ParameterType → SymbolTableError)
    (st : SymbolTable) (l : List (Name × ParameterType)) :
    (checkDupNames err st l).2 = none ↔
      (l.map Prod.fst).Nodup ∧ ∀ n ∈ l.map Prod.fst, lookupA st.names n = none := by
  induction l generalizing st with
  | nil => simp [checkDupNames]
  | cons hd tl ih =>
    obtain ⟨m, t⟩ := hd
    cases hm : lookupA st.names m with
    | some d =>
      rw [checkDupNames_cons_some err st m t tl d hm]
      simp only [List.map_cons, List.nodup_cons, List.mem_cons]
      constructor
      · intro hfalse
        exact absurd hfalse (by simp)
      · rintro ⟨_, hfresh⟩
        have := hfresh m (Or.inl rfl)
        rw [hm] at this
        exact Option.noConfusion this
    | none =>
      rw [checkDupNames_cons_none err st m t tl hm, ih (stepIns st m t)]
      simp only [List.map_cons, List.nodup_cons, List.mem_cons, stepIns_names]
      constructor
      · rintro ⟨hnd, hfresh⟩
        refine ⟨⟨fun hmem => ?_, hnd⟩, fun n hn => ?_⟩
        · have := hfresh m hmem
          rw [lookupA_insertA_self] at this
          exact Option.noConfusion this
        · rcases hn with hn | hn
          · subst hn
            exact hm
          · by_cases hne : n = m
            · subst hne
              exact hm
            · have := hfresh n hn
              rwa [lookupA_insertA_ne st.names m n t hne] at this
      · rintro ⟨⟨hnotm, hnd⟩, hfresh⟩
        refine ⟨hnd, fun n hn => ?_⟩
        have hne : n ≠ m := fun hEq => hnotm (hEq ▸ hn)
        rw [lookupA_insertA_ne st.names m n t hne]
        exact hfresh n (Or.inr hn)

theorem cutc_cons_err (st : SymbolTable) (i : Identifier) (c : Circuit)
    (rest : List (Identifier × Circuit)) (e : SymbolTableError)
    (h : CircuitType.new st c = .error e) :
    st.check_unknown_types_circuits ((i, c) :: rest) = (st, some e) := by
  rw [SymbolTable.check_unknown_types_circuits, h]

theorem cutc_cons_ok (st : SymbolTable) (i : Identifier) (c : Circuit)
    (rest : List (Identifier × Circuit)) (ct : CircuitType)
    (h : CircuitType.new st c = .ok ct) :
    st.check_unknown_types_circuits ((i, c) :: rest) =
      (st.insert_circuit c.circuit_name ct).check_unknown_types_circuits rest := by
  rw [SymbolTable.check_unknown_types_circuits, h]

theorem cutf_cons_err (st : SymbolTable) (i : Identifier) (f : Function)
    (rest : List (Identifier × Function)) (e : SymbolTableError)
    (h : FunctionType.new st f = .error e) :
    st.check_unknown_types_functions ((i, f) :: rest) = (st, some e) := by
  rw [SymbolTable.check_unknown_types_functions, h]

theorem cutf_cons_ok (st : SymbolTable) (i : Identifier) (f : Function)
    (rest : List (Identifier × Function)) (ft : FunctionType)
    (h : FunctionType.new st f = .ok ft) :
    st.check_unknown_types_functions ((i, f) :: rest) =
      (st.insert_function f.identifier ft).check_unknown_types_functions rest := by
  rw [SymbolTable.check_unknown_types_functions, h]

theorem cutc_shape (st : SymbolTable) (l : List (Identifier × Circuit)) :
    (st.check_unknown_types_circuits l).1.names = st.names ∧
    (st.check_unknown_types_circuits l).1.functionsMap = st.functionsMap ∧
    (st.check_unknown_types_circuits l).1.parent = st.parent := by
  induction l generalizing st with
  | nil => exact ⟨rfl, rfl, rfl⟩
  | cons hd tl ih =>
    obtain ⟨i, c⟩ := hd
    cases h : CircuitType.new st c with
    | error e => rw [cutc_cons_err st i c tl e h]; exact ⟨rfl, rfl, rfl⟩
    | ok ct =>
      rw [cutc_cons_ok st i c tl ct h]
      obtain ⟨h1, h2, h3⟩ := ih (st.insert_circuit c.circuit_name ct)
      exact ⟨h1.trans (insert_circuit_names st c.circuit_name ct),
             h2.trans (insert_circuit_functionsMap st c.circuit_name ct),
             h3.trans (insert_circuit_parent st c.circuit_name ct)⟩

theorem cutf_shape (st : SymbolTable) (l : List (Identifier × Function)) :
    (st.check_unknown_types_functions l).1.names = st.names ∧
    (st.check_unknown_types_functions l).1.circuitsMap = st.circuitsMap ∧
    (st.check_unknown_types_functions l).1.parent = st.parent := by
  induction l generalizing st with
  | nil => exact ⟨rfl, rfl, rfl⟩
  | cons hd tl ih =>
    obtain ⟨i, f⟩ := hd
    cases h : FunctionType.new st f with
    | error e => rw [cutf_cons_err st i f tl e h]; exact ⟨rfl, rfl, rfl⟩
    | ok ft =>
      rw [cutf_cons_ok st i f tl ft h]
      obtain ⟨h1, h2, h3⟩ := ih (st.insert_function f.identifier ft)
      exact ⟨h1.trans (insert_function_names st f.identifier ft),
             h2.trans (insert_function_circuitsMap st f.identifier ft),
             h3.trans (insert_function_parent st f.identifier ft)⟩

theorem cutc_mono_isSome (st : SymbolTable) (l : List (Identifier × Circuit)) (n : Name)
    (h : (lookupA st.circuitsMap n).isSome) :
    (lookupA (st.check_unknown_types_circuits l).1.circuitsMap n).isSome := by
  induction l generalizing st with
  | nil => exact h
  | cons hd tl ih =>
    obtain ⟨i, c⟩ := hd
    cases hc : CircuitType.new st c with
    | error e => rw [cutc_cons_err st i c tl e hc]; exact h
    | ok ct =>
      rw [cutc_cons_ok st i c tl ct hc]
      exact ih (st.insert_circuit c.circuit_name ct)
        (by rw [insert_circuit_circuitsMap]
            exact lookupA_insertA_isSome st.circuitsMap c.circuit_name.name n ct h)

theorem cutc_ok_mem (st : SymbolTable) (l : List (Identifier × Circuit))
    (hok : (st.check_unknown_types_circuits l).2 = none) :
    ∀ p ∈ l, (lookupA (st.check_unknown_types_circuits l).1.circuitsMap
      p.2.circuit_name.name).isSome := by
  induction l generalizing st with
  | nil => intro p hp; simp at hp
  | cons hd tl ih =>
    obtain ⟨i, c⟩ := hd
    intro p hp
    cases hc : CircuitType.new st c with
    | error e =>
      rw [cutc_cons_err st i c tl e hc] at hok
      exact absurd hok (by simp)
    | ok ct =>
      rw [cutc_cons_ok st i c tl ct hc] at hok ⊢
      rcases List.mem_cons.mp hp with hp | hp
      · subst hp
        exact cutc_mono_isSome (st.insert_circuit c.circuit_name ct) tl c.circuit_name.name
          (by rw [insert_circuit_circuitsMap, lookupA_insertA_self]; rfl)
      · exact ih (st.insert_circuit c.circuit_name ct) hok p hp

/-- The chain of scopes from a table up through its ancestors. -/
def SymbolTable.chain : SymbolTable → List SymbolTable
  | .root ns cs fs => [.root ns cs fs]
  | .child ns cs fs par => .child ns cs fs par :: par.chain

/-- First hit of a lookup function along a list of scopes. -/
def findSomeA {α : Type} (f : SymbolTable → Option α) : List SymbolTable → Option α
  | [] => none
  | lvl :: rest =>
    match f lvl with
    | some b => some b
    | none => findSomeA f rest

theorem findSomeA_eq_none_iff {α : Type} (f : SymbolTable → Option α)
    (l : List SymbolTable) :
    findSomeA f l = none ↔ ∀ lvl ∈ l, f lvl = none := by
  induction l with
  | nil => simp [findSomeA]
  | cons hd tl ih =>
    rw [findSomeA]
    cases h : f hd with
    | some b =>
      simp only [List.mem_cons]
      constructor
      · intro hfalse
        exact Option.noConfusion hfalse
      · intro hall
        have := hall hd (Or.inl rfl)
        rw [h] at this
        exact Option.noConfusion this
    | none =>
      rw [ih]
      constructor
      · intro hall lvl hl
        rcases List.mem_cons.mp hl with hl | hl
        · subst hl
          exact h
        · exact hall lvl hl
      · intro hall lvl hl
        exact hall lvl (List.mem_cons.mpr (Or.inr hl))

theorem findSomeA_nil {α : Type} (f : SymbolTable → Option α) :
    findSomeA f [] = none := rfl

theorem findSomeA_cons_some {α : Type} (f : SymbolTable → Option α) (lvl : SymbolTable)
    (rest : List SymbolTable) (b : α) (h : f lvl = some b) :
    findSomeA f (lvl :: rest) = some b := by
  rw [findSomeA, h]

theorem findSomeA_cons_none {α : Type} (f : SymbolTable → Option α) (lvl : SymbolTable)
    (rest : List SymbolTable) (h : f lvl = none) :
    findSomeA f (lvl :: rest) = findSomeA f rest := by
  rw [findSomeA, h]

theorem get_circuit_root (ns : List (Name × ParameterType)) (cs : List (Name × CircuitType))
    (fs : List (Name × FunctionType)) (n : Name) :
    (SymbolTable.root ns cs fs).get_circuit n = lookupA cs n := by
  rw [SymbolTable.get_circuit]
  cases lookupA cs n <;> rfl

theorem get_circuit_child_some (ns : List (Name × ParameterType))
    (cs : List (Name × CircuitType)) (fs : List (Name × FunctionType)) (par : SymbolTable)
    (n : Name) (c : CircuitType) (h : lookupA cs n = some c) :
    (SymbolTable.child ns cs fs par).get_circuit n = some c := by
  rw [SymbolTable.get_circuit, h]

theorem get_circuit_child_none (ns : List (Name × ParameterType))
    (cs : List (Name × CircuitType)) (fs : List (Name × FunctionType)) (par : SymbolTable)
    (n : Name) (h : lookupA cs n = none) :
    (SymbolTable.child ns cs fs par).get_circuit n = par.get_circuit n := by
  rw [SymbolTable.get_circuit, h]

theorem get_function_root (ns : List (Name × ParameterType)) (cs : List (Name × CircuitType))
    (fs : List (Name × FunctionType)) (n : Name) :
    (SymbolTable.root ns cs fs).get_function n = lookupA fs n := by
  rw [SymbolTable.get_function]
  cases lookupA fs n <;> rfl

theorem get_function_child_some (ns : List (Name × ParameterType))
    (cs : List (Name × CircuitType)) (fs : List (Name × FunctionType)) (par : SymbolTable)
    (n : Name) (f : FunctionType) (h : lookupA fs n = some f) :
    (SymbolTable.child ns cs fs par).get_function n = some f := by
  rw [SymbolTable.get_function, h]

theorem get_function_child_none (ns : List (Name × ParameterType))
    (cs : List (Name × CircuitType)) (fs : List (Name × FunctionType)) (par : SymbolTable)
    (n : Name) (h : lookupA fs n = none) :
    (SymbolTable.child ns cs fs par).get_function n = par.get_function n := by
  rw [SymbolTable.get_function, h]

theorem get_circuit_eq_chain (st : SymbolTable) (n : Name) :
    st.get_circuit n = findSomeA (fun lvl => lookupA lvl.circuitsMap n) st.chain := by
  induction st with
  | root ns cs fs =>
    rw [SymbolTable.chain, get_circuit_root]
    cases h : lookupA cs n with
    | some c =>
      rw [findSomeA_cons_some (fun lvl => lookupA lvl.circuitsMap n) (.root ns cs fs) [] c h]
    | none =>
      rw [findSomeA_cons_none (fun lvl => lookupA lvl.circuitsMap n) (.root ns cs fs) [] h, findSomeA_nil]
  | child ns cs fs par ih =>
    rw [SymbolTable.chain]
    cases h : lookupA cs n with
    | some c =>
      rw [get_circuit_child_some ns cs fs par n c h,
        findSomeA_cons_some (fun lvl => lookupA lvl.circuitsMap n) (.child ns cs fs par) par.chain c h]
    | none =>
      rw [get_circuit_child_none ns cs fs par n h,
        findSomeA_cons_none (fun lvl => lookupA lvl.circuitsMap n) (.child ns cs fs par) par.chain h]
      exact ih

theorem get_function_eq_chain (st : SymbolTable) (n : Name) :
    st.get_function n = findSomeA (fun lvl => lookupA lvl.functionsMap n) st.chain := by
  induction st with
  | root ns cs fs =>
    rw [SymbolTable.chain, get_function_root]
    cases h : lookupA fs n with
    | some f =>
      rw [findSomeA_cons_some (fun lvl => lookupA lvl.functionsMap n) (.root ns cs fs) [] f h]
    | none =>
      rw [findSomeA_cons_none (fun lvl => lookupA lvl.functionsMap n) (.root ns cs fs) [] h, findSomeA_nil]
  | child ns cs fs par ih =>
    rw [SymbolTable.chain]
    cases h : lookupA fs n with
    | some f =>
      rw [get_function_child_some ns cs fs par n f h,
        findSomeA_cons_some (fun lvl => lookupA lvl.functionsMap n) (.child ns cs fs par) par.chain f h]
    | none =>
      rw [get_function_child_none ns cs fs par n h,
        findSomeA_cons_none (fun lvl => lookupA lvl.functionsMap n) (.child ns cs fs par) par.chain h]
      exact ih

/-
  Claim theorems and witnesses.
-/

instance : Fact (Nat.Prime 5) := ⟨by norm_num⟩

/-- A trivial enforce-main collaborator used by concrete witnesses. -/
def em0 : ConstrainedProgram → List Nat → Name → Function → List (Option InputValue) →
    Except CompilerError (ConstrainedValue × List Nat) :=
  fun _ cs _ _ _ => .ok (.Boolean true, cs)

/-- A program with no definitions at all. -/
def progEmpty : Program := ⟨"p", [], [], []⟩

def fnMain : Function := ⟨⟨"main"⟩, [], .prim "u32"⟩

/-- A program with a single function named main. -/
def progMain : Program := ⟨"p", [], [], [(⟨"main"⟩, fnMain)]⟩

/-- Claim C7: insert_name is an unconditional upsert at the current
level returning the prior bound type when the name was already present
and none otherwise; insert_circuit_name and insert_function_name fail
with a duplicate-name error carrying the colliding prior type exactly
when insert_name reports a prior value, and succeed otherwise. -/
theorem claim_C7_insert_name_upsert (st : SymbolTable) (n : Name) (t : ParameterType) :
    ((st.insert_name n t).2 = lookupA st.names n ∧
     lookupA (st.insert_name n t).1.names n = some t ∧
     (∀ m, m ≠ n → lookupA (st.insert_name n t).1.names m = lookupA st.names m) ∧
     (st.insert_name n t).1.circuitsMap = st.circuitsMap ∧
     (st.insert_name n t).1.functionsMap = st.functionsMap ∧
     (st.insert_name n t).1.parent = st.parent) ∧
    (∀ d, lookupA st.names n = some d →
      st.insert_circuit_name n t = ((st.insert_name n t).1, some (.duplicate_circuit d)) ∧
      st.insert_function_name n t = ((st.insert_name n t).1, some (.duplicate_function d))) ∧
    (lookupA st.names n = none →
      st.insert_circuit_name n t = ((st.insert_name n t).1, none) ∧
      st.insert_function_name n t = ((st.insert_name n t).1, none)) := by
  refine ⟨⟨?_, ?_, ?_, ?_, ?_, ?_⟩, ?_, ?_⟩
  · simp [insert_name_eq]
  · simp [insert_name_eq, names_mk, lookupA_insertA_self]
  · intro m hm
    simp [insert_name_eq, names_mk, lookupA_insertA_ne st.names n m t hm]
  · simp [insert_name_eq, circuitsMap_mk]
  · simp [insert_name_eq, functionsMap_mk]
  · simp [insert_name_eq, parent_mk]
  · intro d hd
    simp [insert_circuit_name_eq, insert_function_name_eq, insert_name_eq, hd]
  · intro hd
    simp [insert_circuit_name_eq, insert_function_name_eq, insert_name_eq, hd]

/-- Witness for claim C7 at a concrete table binding x. -/
theorem claim_C7_witness :
    ((SymbolTable.root [("x", ParameterType.prim "u8")] [] []).insert_circuit_name "x"
        (ParameterType.prim "u32") =
      (((SymbolTable.root [("x", ParameterType.prim "u8")] [] []).insert_name "x"
          (ParameterType.prim "u32")).1,
       some (.duplicate_circuit (ParameterType.prim "u8")))) :=
  ((claim_C7_insert_name_upsert (SymbolTable.root [("x", ParameterType.prim "u8")] [] [])
    "x" (ParameterType.prim "u32")).2.1 (ParameterType.prim "u8") (by decide)).1

/-- Claim C9: circuit and function names share a single namespace per
level: a function name inserted over a prior circuit name fails with a
duplicate-function error carrying the prior type, and a circuit name
inserted over a prior function name fails with a duplicate-circuit
error. -/
theorem claim_C9_shared_namespace (st : SymbolTable) (n : Name) (t u : ParameterType)
    (h : lookupA st.names n = none) :
    ((st.insert_circuit_name n t).2 = none ∧
     ((st.insert_circuit_name n t).1.insert_function_name n u).2 =
       some (.duplicate_function t)) ∧
    ((st.insert_function_name n t).2 = none ∧
     ((st.insert_function_name n t).1.insert_circuit_name n u).2 =
       some (.duplicate_circuit t)) := by
  simp only [insert_circuit_name_eq, insert_function_name_eq, h, names_mk,
    lookupA_insertA_self]
  exact ⟨⟨rfl, rfl⟩, ⟨rfl, rfl⟩⟩

/-- Witness for claim C9 at the empty table and name f. -/
theorem claim_C9_witness :
    (((SymbolTable.root [] [] []).insert_circuit_name "f" (ParameterType.prim "u8")).2 =
        none ∧
      (((SymbolTable.root [] [] []).insert_circuit_name "f"
          (ParameterType.prim "u8")).1.insert_function_name "f"
          (ParameterType.prim "u16")).2 =
        some (.duplicate_function (ParameterType.prim "u8"))) ∧
    (((SymbolTable.root [] [] []).insert_function_name "f" (ParameterType.prim "u8")).2 =
        none ∧
      (((SymbolTable.root [] [] []).insert_function_name "f"
          (ParameterType.prim "u8")).1.insert_circuit_name "f"
          (ParameterType.prim "u16")).2 =
        some (.duplicate_circuit (ParameterType.prim "u8"))) :=
  claim_C9_shared_namespace (SymbolTable.root [] [] []) "f" (ParameterType.prim "u8")
    (ParameterType.prim "u16") rfl

/-- Claim C10: insert_input is atomic on error: when any per-section
circuit type construction fails, the returned table is the input table
unchanged. -/
theorem claim_C10_insert_input_atomic (st : SymbolTable) (input : Input)
    (e : SymbolTableError) (h : (st.insert_input input).2 = some e) :
    (st.insert_input input).1 = st := by
  unfold SymbolTable.insert_input at h ⊢
  cases h1 : CircuitType.from_input_section st REGISTERS_VARIABLE_NAME input.registers with
  | error e1 => rfl
  | ok rt =>
    cases h2 : CircuitType.from_input_section st RECORD_VARIABLE_NAME input.record with
    | error e2 => rfl
    | ok rec0 =>
      cases h3 : CircuitType.from_input_section st STATE_VARIABLE_NAME input.state with
      | error e3 => rfl
      | ok sv =>
        cases h4 : CircuitType.from_input_section st STATE_LEAF_VARIABLE_NAME
            input.state_leaf with
        | error e4 => rfl
        | ok slv =>
          rw [h1, h2, h3, h4] at h
          simp at h

/-- Witness for claim C10: a registers section naming an undeclared
type leaves the empty table unchanged. -/
theorem claim_C10_witness :
    ((SymbolTable.root [] [] []).insert_input
        ⟨[("r0", TypeName.named "Missing")], [], [], []⟩).1 =
      SymbolTable.root [] [] [] :=
  claim_C10_insert_input_atomic (SymbolTable.root [] [] [])
    ⟨[("r0", TypeName.named "Missing")], [], [], []⟩
    (.unknown_type "Missing") (by decide)

/-- Claim C8: field inversion fails with NoInverse exactly on the
additive identity; on any nonzero element it succeeds, returns the
inverse, and the emitted constraint asserts that the operand times the
inverse is the multiplicative identity, which holds. -/
theorem claim_C8_field_inverse {F : Type} [Field F] [DecidableEq F]
    (cs : List (R1Constraint F)) (x : F) :
    ((∃ s, field_inverse cs x = .error (.NoInverse s)) ↔ x = 0) ∧
    (x ≠ 0 →
      field_inverse cs x = .ok (x⁻¹, cs ++ [(x, x⁻¹, 1)]) ∧ x * x⁻¹ = 1) := by
  constructor
  · constructor
    · rintro ⟨s, hs⟩
      by_contra hx
      rw [field_inverse, if_neg hx] at hs
      exact Except.noConfusion hs
    · intro hx
      exact ⟨"zero", by rw [field_inverse, if_pos hx]⟩
  · intro hx
    exact ⟨by rw [field_inverse, if_neg hx], mul_inv_cancel₀ hx⟩

/-- Witness for claim C8 over the five-element prime field at two. -/
theorem claim_C8_witness :
    (2 : ZMod 5) ≠ 0 ∧
    (field_inverse ([] : List (R1Constraint (ZMod 5))) 2 =
        .ok ((2 : ZMod 5)⁻¹, [((2 : ZMod 5), (2 : ZMod 5)⁻¹, 1)]) ∧
      (2 : ZMod 5) * (2 : ZMod 5)⁻¹ = 1) :=
  ⟨by decide, (claim_C8_field_inverse ([] : List (R1Constraint (ZMod 5))) 2).2 (by decide)⟩

/-- Claim C6: get_circuit and get_function look up the current level
and recurse into the parent on a miss, returning none exactly when no
ancestor binds the name; a parent binding is visible from a child, a
sibling binding is never visible from the other sibling; get_variable
checks only the current level and never recurses. -/
theorem claim_C6_scoped_lookup :
    (∀ (st : SymbolTable) (n : Name),
       st.get_circuit n = findSomeA (fun lvl => lookupA lvl.circuitsMap n) st.chain ∧
       st.get_function n = findSomeA (fun lvl => lookupA lvl.functionsMap n) st.chain ∧
       (st.get_circuit n = none ↔ ∀ lvl ∈ st.chain, lookupA lvl.circuitsMap n = none) ∧
       (st.get_function n = none ↔ ∀ lvl ∈ st.chain, lookupA lvl.functionsMap n = none)) ∧
    (∀ ns cs fs (par : SymbolTable) (n : Name),
       lookupA cs n = none →
       (SymbolTable.child ns cs fs par).get_circuit n = par.get_circuit n ∧
       (lookupA fs n = none →
         (SymbolTable.child ns cs fs par).get_function n = par.get_function n)) ∧
    (∀ ns1 cs1 fs1 ns2 cs2 fs2 (par : SymbolTable) (n : Name) (c : CircuitType),
       lookupA cs1 n = some c → lookupA cs2 n = none → par.get_circuit n = none →
       (SymbolTable.child ns1 cs1 fs1 par).get_circuit n = some c ∧
       (SymbolTable.child ns2 cs2 fs2 par).get_circuit n = none) ∧
    (∀ (ns : List (Name × ParameterType)) cs fs (p : Option SymbolTable) (n : Name),
       (SymbolTable.mk ns cs fs p).get_variable n = lookupA ns n) := by
  refine ⟨?_, ?_, ?_, ?_⟩
  · intro st n
    refine ⟨get_circuit_eq_chain st n, get_function_eq_chain st n, ?_, ?_⟩
    · rw [get_circuit_eq_chain st n]
      exact findSomeA_eq_none_iff (fun lvl => lookupA lvl.circuitsMap n) st.chain
    · rw [get_function_eq_chain st n]
      exact findSomeA_eq_none_iff (fun lvl => lookupA lvl.functionsMap n) st.chain
  · intro ns cs fs par n hc
    exact ⟨get_circuit_child_none ns cs fs par n hc,
      fun hf => get_function_child_none ns cs fs par n hf⟩
  · intro ns1 cs1 fs1 ns2 cs2 fs2 par n c h1 h2 hp
    refine ⟨get_circuit_child_some ns1 cs1 fs1 par n c h1, ?_⟩
    rw [get_circuit_child_none ns2 cs2 fs2 par n h2]
    exact hp
  · intro ns cs fs p n
    unfold SymbolTable.get_variable
    rw [names_mk]
    cases lookupA ns n <;> rfl

/-- Witness for claim C6: the sibling-invisibility conjunct at
concrete tables, with the name bound in one sibling only. -/
theorem claim_C6_witness :
    lookupA [("C", (⟨⟨"C"⟩, [], []⟩ : CircuitType))] "C" =
        some (⟨⟨"C"⟩, [], []⟩ : CircuitType) ∧
    lookupA ([] : List (Name × CircuitType)) "C" = none ∧
    (SymbolTable.root [] [] []).get_circuit "C" = none ∧
    ((SymbolTable.child [] [("C", (⟨⟨"C"⟩, [], []⟩ : CircuitType))] []
        (SymbolTable.root [] [] [])).get_circuit "C" =
      some (⟨⟨"C"⟩, [], []⟩ : CircuitType) ∧
     (SymbolTable.child [] [] [] (SymbolTable.root [] [] [])).get_circuit "C" = none) :=
  ⟨by decide, rfl, rfl,
    claim_C6_scoped_lookup.2.2.1 [] [("C", ⟨⟨"C"⟩, [], []⟩)] [] [] [] []
      (SymbolTable.root [] [] []) "C" ⟨⟨"C"⟩, [], []⟩ (by decide) rfl rfl⟩

/-- Claim C1: generate_constraints resolves all top-level definitions
into the flat map, looks up the qualified main name, fails with NoMain
when nothing is bound there, fails with NoMainFunction when the bound
value is not the Function variant, and otherwise invokes the
enforce-main collaborator with the sink, program name, function body
and parameters. -/
theorem claim_C1_generate_constraints {CS : Type}
    (em : ConstrainedProgram → CS → Name → Function → List (Option InputValue) →
      Except CompilerError (ConstrainedValue × CS))
    (cs : CS) (program : Program) (parameters : List (Option InputValue))
    (rp : ConstrainedProgram)
    (h : ConstrainedProgram.new.resolve_definitions program = .ok rp) :
    (rp.get (new_scope program.name "main") = none →
       generate_constraints em cs program parameters = .error .NoMain) ∧
    (∀ v, rp.get (new_scope program.name "main") = some v →
       (∀ ci f, v ≠ .Function ci f) →
       generate_constraints em cs program parameters = .error .NoMainFunction) ∧
    (∀ ci f, rp.get (new_scope program.name "main") = some (.Function ci f) →
       generate_constraints em cs program parameters = em rp cs program.name f parameters) := by
  refine ⟨?_, ?_, ?_⟩
  · intro hget
    simp only [generate_constraints, h]
    rw [hget]
  · intro v hget hnf
    simp only [generate_constraints, h]
    rw [hget]
    cases v with
    | Function ci f => exact absurd rfl (hnf ci f)
    | CircuitDefinition c => rfl
    | Boolean b => rfl
    | FieldElement x => rfl
  · intro ci f hget
    simp only [generate_constraints, h]
    rw [hget]

/-- Witness for claim C1: a program with no definitions fails with
NoMain. -/
theorem claim_C1_witness :
    ConstrainedProgram.new.resolve_definitions progEmpty = .ok [] ∧
    ConstrainedProgram.get [] (new_scope progEmpty.name "main") = none ∧
    generate_constraints em0 [] progEmpty [] = .error .NoMain :=
  ⟨rfl, rfl, (claim_C1_generate_constraints em0 [] progEmpty [] [] rfl).1 rfl⟩

/-- Claim C2: constraint generation is deterministic: two runs from
equal sinks, equal typed programs and equal parameter lists produce
the same value and the same final constraint sink. -/
theorem claim_C2_deterministic {CS : Type}
    (em : ConstrainedProgram → CS → Name → Function → List (Option InputValue) →
      Except CompilerError (ConstrainedValue × CS))
    (cs1 cs2 : CS) (p1 p2 : Program) (v1 v2 : List (Option InputValue))
    (val1 val2 : ConstrainedValue) (s1 s2 : CS)
    (hcs : cs1 = cs2) (hp : p1 = p2) (hv : v1 = v2)
    (h1 : generate_constraints em cs1 p1 v1 = .ok (val1, s1))
    (h2 : generate_constraints em cs2 p2 v2 = .ok (val2, s2)) :
    val1 = val2 ∧ s1 = s2 := by
  subst hcs hp hv
  rw [h1] at h2
  injection h2 with h3
  exact ⟨congrArg Prod.fst h3, congrArg Prod.snd h3⟩

/-- Witness for claim C2: two runs on a one-function program emit
identical results and sinks. -/
theorem claim_C2_witness :
    generate_constraints em0 [] progMain [] = .ok (.Boolean true, []) ∧
    ((ConstrainedValue.Boolean true) = .Boolean true ∧ ([] : List Nat) = []) :=
  ⟨rfl,
    claim_C2_deterministic em0 [] [] progMain progMain [] [] (.Boolean true)
      (.Boolean true) [] [] rfl rfl rfl rfl rfl⟩

theorem Identifier.new_name (n : Name) : (Identifier.new n).name = n := rfl

/-- The five circuit names registered by insert_input. -/
def inputNames : List Name :=
  [REGISTERS_VARIABLE_NAME, RECORD_VARIABLE_NAME, STATE_VARIABLE_NAME,
   STATE_LEAF_VARIABLE_NAME, INPUT_VARIABLE_NAME]

theorem fis_identifier (st : SymbolTable) (name : Name) (values : List (Name × TypeName))
    (ct : CircuitType) (h : CircuitType.from_input_section st name values = .ok ct) :
    ct.identifier = Identifier.new name := by
  unfold CircuitType.from_input_section at h
  cases hr : resolveVars st values with
  | error e =>
    rw [hr] at h
    simp at h
  | ok vars =>
    rw [hr] at h
    have h2 : (⟨Identifier.new name, vars, []⟩ : CircuitType) = ct := by simpa using h
    rw [← h2]

theorem insert_input_ok (st : SymbolTable) (input : Input) (rt rec0 sv slv : CircuitType)
    (h1 : CircuitType.from_input_section st REGISTERS_VARIABLE_NAME input.registers = .ok rt)
    (h2 : CircuitType.from_input_section st RECORD_VARIABLE_NAME input.record = .ok rec0)
    (h3 : CircuitType.from_input_section st STATE_VARIABLE_NAME input.state = .ok sv)
    (h4 : CircuitType.from_input_section st STATE_LEAF_VARIABLE_NAME input.state_leaf =
      .ok slv) :
    st.insert_input input =
      (((((st.insert_circuit rt.identifier rt).insert_circuit rec0.identifier
            rec0).insert_circuit sv.identifier sv).insert_circuit slv.identifier
            slv).insert_circuit (Identifier.new INPUT_VARIABLE_NAME)
          ⟨Identifier.new INPUT_VARIABLE_NAME,
           [CircuitVariableType.from0 rt, CircuitVariableType.from0 rec0,
            CircuitVariableType.from0 sv, CircuitVariableType.from0 slv], []⟩,
       none) := by
  unfold SymbolTable.insert_input
  rw [h1, h2, h3, h4]

/-- Claim C5: for every input, a successful insert_input call inserts
exactly the five circuit names registers, record, state, state_leaf
and input into the circuit map, leaving every other circuit binding
and the other maps unchanged; insert_input itself never fails: any
error it returns is an error of one of the four per-section type
constructions. -/
theorem claim_C5_insert_input_five (st : SymbolTable) (input : Input) :
    ((st.insert_input input).2 = none →
       (∀ n ∈ inputNames, (lookupA (st.insert_input input).1.circuitsMap n).isSome) ∧
       (∀ n, n ∉ inputNames →
         lookupA (st.insert_input input).1.circuitsMap n = lookupA st.circuitsMap n) ∧
       (st.insert_input input).1.names = st.names ∧
       (st.insert_input input).1.functionsMap = st.functionsMap ∧
       (st.insert_input input).1.parent = st.parent) ∧
    (∀ e, (st.insert_input input).2 = some e →
       CircuitType.from_input_section st REGISTERS_VARIABLE_NAME input.registers =
           .error e ∨
       CircuitType.from_input_section st RECORD_VARIABLE_NAME input.record = .error e ∨
       CircuitType.from_input_section st STATE_VARIABLE_NAME input.state = .error e ∨
       CircuitType.from_input_section st STATE_LEAF_VARIABLE_NAME input.state_leaf =
           .error e) := by
  constructor
  · intro hok
    cases h1 : CircuitType.from_input_section st REGISTERS_VARIABLE_NAME input.registers with
    | error e1 =>
      exfalso
      unfold SymbolTable.insert_input at hok
      rw [h1] at hok
      simp at hok
    | ok rt =>
    cases h2 : CircuitType.from_input_section st RECORD_VARIABLE_NAME input.record with
    | error e2 =>
      exfalso
      unfold SymbolTable.insert_input at hok
      rw [h1, h2] at hok
      simp at hok
    | ok rec0 =>
    cases h3 : CircuitType.from_input_section st STATE_VARIABLE_NAME input.state with
    | error e3 =>
      exfalso
      unfold SymbolTable.insert_input at hok
      rw [h1, h2, h3] at hok
      simp at hok
    | ok sv =>
    cases h4 : CircuitType.from_input_section st STATE_LEAF_VARIABLE_NAME
        input.state_leaf with
    | error e4 =>
      exfalso
      unfold SymbolTable.insert_input at hok
      rw [h1, h2, h3, h4] at hok
      simp at hok
    | ok slv =>
      rw [insert_input_ok st input rt rec0 sv slv h1 h2 h3 h4]
      rw [fis_identifier st REGISTERS_VARIABLE_NAME input.registers rt h1,
        fis_identifier st RECORD_VARIABLE_NAME input.record rec0 h2,
        fis_identifier st STATE_VARIABLE_NAME input.state sv h3,
        fis_identifier st STATE_LEAF_VARIABLE_NAME input.state_leaf slv h4]
      simp only [insert_circuit_circuitsMap, insert_circuit_names,
        insert_circuit_functionsMap, insert_circuit_parent, Identifier.new_name]
      refine ⟨?_, ?_, trivial, trivial, trivial⟩
      · intro n hn
        simp only [inputNames, List.mem_cons, List.not_mem_nil, or_false] at hn
        rcases hn with rfl | rfl | rfl | rfl | rfl
        · rw [lookupA_insertA_ne _ _ _ _ (by decide), lookupA_insertA_ne _ _ _ _ (by decide),
            lookupA_insertA_ne _ _ _ _ (by decide), lookupA_insertA_ne _ _ _ _ (by decide),
            lookupA_insertA_self]
          rfl
        · rw [lookupA_insertA_ne _ _ _ _ (by decide), lookupA_insertA_ne _ _ _ _ (by decide),
            lookupA_insertA_ne _ _ _ _ (by decide), lookupA_insertA_self]
          rfl
        · rw [lookupA_insertA_ne _ _ _ _ (by decide), lookupA_insertA_ne _ _ _ _ (by decide),
            lookupA_insertA_self]
          rfl
        · rw [lookupA_insertA_ne _ _ _ _ (by decide), lookupA_insertA_self]
          rfl
        · rw [lookupA_insertA_self]
          rfl
      · intro n hn
        simp only [inputNames, List.mem_cons, List.not_mem_nil, or_false, not_or] at hn
        obtain ⟨hn1, hn2, hn3, hn4, hn5⟩ := hn
        rw [lookupA_insertA_ne _ _ _ _ hn5, lookupA_insertA_ne _ _ _ _ hn4,
          lookupA_insertA_ne _ _ _ _ hn3, lookupA_insertA_ne _ _ _ _ hn2,
          lookupA_insertA_ne _ _ _ _ hn1]
  · intro e he
    unfold SymbolTable.insert_input at he
    cases h1 : CircuitType.from_input_section st REGISTERS_VARIABLE_NAME input.registers with
    | error e1 =>
      rw [h1] at he
      simp at he
      subst he
      exact Or.inl rfl
    | ok rt =>
    rw [h1] at he
    cases h2 : CircuitType.from_input_section st RECORD_VARIABLE_NAME input.record with
    | error e2 =>
      rw [h2] at he
      simp at he
      subst he
      exact Or.inr (Or.inl rfl)
    | ok rec0 =>
    rw [h2] at he
    cases h3 : CircuitType.from_input_section st STATE_VARIABLE_NAME input.state with
    | error e3 =>
      rw [h3] at he
      simp at he
      subst he
      exact Or.inr (Or.inr (Or.inl rfl))
    | ok sv =>
    rw [h3] at he
    cases h4 : CircuitType.from_input_section st STATE_LEAF_VARIABLE_NAME
        input.state_leaf with
    | error e4 =>
      rw [h4] at he
      simp at he
      subst he
      exact Or.inr (Or.inr (Or.inr rfl))
    | ok slv =>
      rw [h4] at he
      simp at he

/-- Witness for claim C5 at the empty table and the all-empty input
bundle. -/
theorem claim_C5_witness :
    (((SymbolTable.root [] [] []).insert_input ⟨[], [], [], []⟩).2 = none) ∧
    (∀ n ∈ inputNames,
      (lookupA ((SymbolTable.root [] [] []).insert_input
        ⟨[], [], [], []⟩).1.circuitsMap n).isSome) :=
  ⟨rfl, (claim_C5_insert_input_five (SymbolTable.root [] [] []) ⟨[], [], [], []⟩).1 rfl |>.1⟩

theorem map_fst_circ (l : List (Identifier × Circuit)) :
    (l.map (fun p => (p.1.name, ParameterType.circuit p.2))).map Prod.fst =
      l.map (fun p => p.1.name) := by
  rw [List.map_map]
  rfl

theorem map_fst_fun (l : List (Identifier × Function)) :
    (l.map (fun p => (p.1.name, ParameterType.function p.2))).map Prod.fst =
      l.map (fun p => p.1.name) := by
  rw [List.map_map]
  rfl

/-- Claim C3: a star import inserts every circuit and function name of
the target program and fails exactly when there is any duplicate
(within the imported names or against the current table); a
non-star import searches the target circuits first then its functions,
inserts the match under the alias when one is given and the symbol
name otherwise, and fails with an unknown-symbol error when neither
matches. -/
theorem claim_C3_insert_import_symbol (st : SymbolTable) (symbol : ImportSymbol)
    (program : Program) :
    (symbol.is_star = true →
      ((st.insert_import_symbol symbol program).2 = none ↔
        ((program.circuits.map (fun p => p.1.name) ++
          program.functions.map (fun p => p.1.name)).Nodup ∧
         ∀ n ∈ program.circuits.map (fun p => p.1.name) ++
               program.functions.map (fun p => p.1.name),
           lookupA st.names n = none)) ∧
      ((st.insert_import_symbol symbol program).2 = none →
        ∀ n ∈ program.circuits.map (fun p => p.1.name) ++
              program.functions.map (fun p => p.1.name),
          (lookupA (st.insert_import_symbol symbol program).1.names n).isSome)) ∧
    (symbol.is_star = false →
      (∀ i c, program.circuits.find? (fun p => symbol.symbol = p.1) = some (i, c) →
        st.insert_import_symbol symbol program =
          st.insert_circuit_name (symbol.alias0.getD symbol.symbol).name
            (ParameterType.circuit c)) ∧
      (program.circuits.find? (fun p => symbol.symbol = p.1) = none →
        (∀ i f, program.functions.find? (fun p => symbol.symbol = p.1) = some (i, f) →
          st.insert_import_symbol symbol program =
            st.insert_function_name (symbol.alias0.getD symbol.symbol).name
              (ParameterType.function f)) ∧
        (program.functions.find? (fun p => symbol.symbol = p.1) = none →
          st.insert_import_symbol symbol program =
            (st, some (.unknown_symbol symbol.symbol.name program.name))))) := by
  constructor
  · intro hstar
    unfold SymbolTable.insert_import_symbol
    rw [if_pos hstar]
    cases hc : st.check_duplicate_circuits program.circuits with
    | mk st1 oe =>
      have hcEq : checkDupNames SymbolTableError.duplicate_circuit st
          (program.circuits.map (fun p => (p.1.name, ParameterType.circuit p.2))) =
            (st1, oe) := by
        rw [← check_duplicate_circuits_eq, hc]
      cases oe with
      | some e =>
        have hcond : ¬((program.circuits.map (fun p => p.1.name)).Nodup ∧
            ∀ n ∈ program.circuits.map (fun p => p.1.name),
              lookupA st.names n = none) := by
          intro hcnd
          have hok : (checkDupNames SymbolTableError.duplicate_circuit st
              (program.circuits.map
                (fun p => (p.1.name, ParameterType.circuit p.2)))).2 = none := by
            rw [checkDupNames_snd_none_iff, map_fst_circ]
            exact hcnd
          rw [hcEq] at hok
          exact Option.noConfusion hok
        constructor
        · constructor
          · intro hfalse
            exact absurd hfalse (by simp)
          · rintro ⟨hnd, hfresh⟩
            refine absurd ⟨List.Nodup.of_append_left hnd, fun n hn => ?_⟩ hcond
            exact hfresh n (List.mem_append_left _ hn)
        · intro hfalse
          exact absurd hfalse (by simp)
      | none =>
        simp only []
        have hcirc : (program.circuits.map (fun p => p.1.name)).Nodup ∧
            ∀ n ∈ program.circuits.map (fun p => p.1.name),
              lookupA st.names n = none := by
          have := (checkDupNames_snd_none_iff SymbolTableError.duplicate_circuit st
            (program.circuits.map (fun p => (p.1.name, ParameterType.circuit p.2)))).mp
            (by rw [hcEq])
          rwa [map_fst_circ] at this
        have hst1 : st1 = (checkDupNames SymbolTableError.duplicate_circuit st
            (program.circuits.map (fun p => (p.1.name, ParameterType.circuit p.2)))).1 := by
          rw [hcEq]
        have hmemC : ∀ n ∈ program.circuits.map (fun p => p.1.name),
            (lookupA st1.names n).isSome := by
          intro n hn
          rw [hst1]
          exact checkDupNames_ok_mem_isSome _ st _ n (by rw [hcEq]) (by rwa [map_fst_circ])
        have hotherC : ∀ n, n ∉ program.circuits.map (fun p => p.1.name) →
            lookupA st1.names n = lookupA st.names n := by
          intro n hn
          rw [hst1]
          exact checkDupNames_preserve_other _ st _ n (by rwa [map_fst_circ])
        have hfEq : st1.check_duplicate_functions program.functions =
            checkDupNames SymbolTableError.duplicate_function st1
              (program.functions.map (fun p => (p.1.name, ParameterType.function p.2))) :=
          check_duplicate_functions_eq st1 program.functions
        constructor
        · rw [hfEq, checkDupNames_snd_none_iff, map_fst_fun, List.nodup_append]
          constructor
          · rintro ⟨hfn, hffresh⟩
            have hdisj : (program.circuits.map (fun p => p.1.name)).Disjoint
                (program.functions.map (fun p => p.1.name)) := by
              intro a haC haF
              have h2 := hmemC a haC
              rw [hffresh a haF] at h2
              exact Bool.noConfusion h2
            refine ⟨⟨hcirc.1, hfn, hdisj⟩, fun n hn => ?_⟩
            rcases List.mem_append.mp hn with hn | hn
            · exact hcirc.2 n hn
            · have hne : n ∉ program.circuits.map (fun p => p.1.name) :=
                fun hmem => hdisj hmem hn
              rw [← hotherC n hne]
              exact hffresh n hn
          · rintro ⟨⟨hndC, hndF, hdisj⟩, hfresh⟩
            refine ⟨hndF, fun n hn => ?_⟩
            have hne : n ∉ program.circuits.map (fun p => p.1.name) :=
              fun hmem => hdisj hmem hn
            rw [hotherC n hne]
            exact hfresh n (List.mem_append_right _ hn)
        · intro hok n hn
          rw [hfEq] at hok ⊢
          rcases List.mem_append.mp hn with hn | hn
          · exact checkDupNames_mono_isSome _ st1 _ n (hmemC n hn)
          · exact checkDupNames_ok_mem_isSome _ st1 _ n hok (by rwa [map_fst_fun])
  · intro hstar
    unfold SymbolTable.insert_import_symbol
    rw [if_neg (by simp [hstar])]
    refine ⟨?_, ?_⟩
    · intro i c hfind
      rw [hfind]
    · intro hnone
      rw [hnone]
      refine ⟨?_, ?_⟩
      · intro i f hfind
        rw [hfind]
      · intro hnone2
        rw [hnone2]

/-- A single-circuit program used by concrete import witnesses. -/
def progC : Program := ⟨"m", [], [(⟨"C"⟩, ⟨⟨"C"⟩, []⟩)], []⟩

/-- An import symbol matching nothing in progC. -/
def symX : ImportSymbol := ⟨⟨"X"⟩, none⟩

/-- Witness for claim C3: importing symbol X from a program exposing
only circuit C fails with the unknown-symbol error. -/
theorem claim_C3_witness :
    symX.is_star = false ∧
    progC.circuits.find? (fun p => symX.symbol = p.1) = none ∧
    progC.functions.find? (fun p => symX.symbol = p.1) = none ∧
    (SymbolTable.root [] [] []).insert_import_symbol symX progC =
      (SymbolTable.root [] [] [], some (.unknown_symbol "X" "m")) := by
  refine ⟨by decide, by decide, by decide, ?_⟩
  have h := (claim_C3_insert_import_symbol (SymbolTable.root [] [] []) symX progC).2
    (by decide)
  exact ((h.2 (by decide)).2 (by decide))

/-- An import symbol for circuit C aliased as D. -/
def symC : ImportSymbol := ⟨⟨"C"⟩, some ⟨"D"⟩⟩

/-- An import statement pulling symC from module m. -/
def imp0 : ImportStatement := ⟨"m", [("m", symC)]⟩

/-- An import parser exposing module m as progC. -/
def ip0 : ImportParser := ⟨[("m", progC)], []⟩

theorem insert_import_loop_nil (fuel : Nat) (st : SymbolTable) (checked : List Name)
    (ip : ImportParser) :
    SymbolTable.insert_import_loop fuel st checked [] ip = (st, none) := by
  rw [SymbolTable.insert_import_loop]

theorem check_imports_nil (fuel : Nat) (st : SymbolTable) (ip : ImportParser) :
    SymbolTable.check_imports fuel st [] ip = (st, none) := by
  rw [SymbolTable.check_imports]

theorem insert_import_singleton (fuel : Nat) (st : SymbolTable) (name : Name)
    (sym : ImportSymbol) (imp : ImportStatement) (ip : ImportParser) (prog : Program)
    (hs : ImportedSymbols.from imp = [(name, sym)])
    (hg : ip.get_import name = some prog) :
    SymbolTable.insert_import (fuel + 1) st imp ip =
      (match SymbolTable.check_duplicate_program fuel st prog ip with
       | (st1, some e) => (st1, some e)
       | (st1, none) =>
         match st1.check_unknown_types_program prog with
         | (st2, some e) => (st2, some e)
         | (st2, none) => SymbolTable.insert_import_loop (fuel + 1) st2 [name] [] ip) := by
  rw [SymbolTable.insert_import, hs, SymbolTable.insert_import_loop]
  simp only [List.not_mem_nil, if_false]
  rw [hg]

theorem cdp_no_imports (fuel : Nat) (st : SymbolTable) (prog : Program)
    (ip : ImportParser) (himp : prog.imports = []) :
    SymbolTable.check_duplicate_program fuel st prog ip =
      (match st.check_duplicate_circuits prog.circuits with
       | (s1, some e) => (s1, some e)
       | (s1, none) => s1.check_duplicate_functions prog.functions) := by
  rw [SymbolTable.check_duplicate_program, himp, check_imports_nil]

/-- Counterexample to claim C4 as stated: a successful insert_import
of module m (one circuit C, aliased as D) leaves the importing table
changed with respect to the imported module declarations: the name C
is bound in the names map and its resolved type in the circuits map,
although both maps were empty before the call. -/
theorem claim_C4_counterexample :
    (SymbolTable.insert_import 1 (SymbolTable.root [] [] []) imp0 ip0).2 = none ∧
    lookupA (SymbolTable.insert_import 1 (SymbolTable.root [] [] []) imp0 ip0).1.names
        "C" = some (ParameterType.circuit ⟨⟨"C"⟩, []⟩) ∧
    lookupA (SymbolTable.insert_import 1
        (SymbolTable.root [] [] []) imp0 ip0).1.circuitsMap "C" =
      some (⟨⟨"C"⟩, [], []⟩ : CircuitType) := by
  refine ⟨?_, ?_, ?_⟩ <;>
    simp [SymbolTable.insert_import, SymbolTable.insert_import_loop, ImportedSymbols.from,
      imp0, ip0, symC, progC, ImportParser.get_import, lookupA,
      SymbolTable.check_duplicate_program, SymbolTable.check_imports,
      SymbolTable.check_duplicate_circuits, SymbolTable.check_duplicate_functions,
      SymbolTable.check_unknown_types_program, SymbolTable.check_unknown_types_circuits,
      SymbolTable.check_unknown_types_functions, CircuitType.new, resolveVars,
      SymbolTable.insert_circuit_name, SymbolTable.insert_function_name,
      SymbolTable.insert_name, SymbolTable.insert_circuit, SymbolTable.insert_function,
      SymbolTable.withMaps, SymbolTable.names, SymbolTable.circuitsMap,
      SymbolTable.functionsMap, insertA]

theorem cutp_ok (st1 : SymbolTable) (prog : Program) (st2 : SymbolTable)
    (h : st1.check_unknown_types_program prog = (st2, none)) :
    st2.names = st1.names ∧
    ∀ p ∈ prog.circuits, (lookupA st2.circuitsMap p.2.circuit_name.name).isSome := by
  unfold SymbolTable.check_unknown_types_program at h
  cases hcc : st1.check_unknown_types_circuits prog.circuits with
  | mk sa oea =>
    rw [hcc] at h
    cases oea with
    | some ea => simp at h
    | none =>
      simp only [] at h
      have h1 : (sa.check_unknown_types_functions prog.functions).1 = st2 :=
        congrArg Prod.fst h
      have h0 : (st1.check_unknown_types_circuits prog.circuits).1 = sa := by rw [hcc]
      constructor
      · rw [← h1, (cutf_shape sa prog.functions).1, ← h0,
          (cutc_shape st1 prog.circuits).1]
      · intro p hp
        rw [← h1, (cutf_shape sa prog.functions).2.1, ← h0]
        exact cutc_ok_mem st1 prog.circuits (by rw [hcc]) p hp

theorem cdp_ok_names (fuel : Nat) (st : SymbolTable) (prog : Program) (ip : ImportParser)
    (st1 : SymbolTable) (himp : prog.imports = [])
    (h : SymbolTable.check_duplicate_program fuel st prog ip = (st1, none)) (n : Name)
    (hnc : n ∉ prog.circuits.map (fun p => p.1.name))
    (hnf : n ∉ prog.functions.map (fun p => p.1.name)) :
    lookupA st1.names n = lookupA st.names n := by
  rw [cdp_no_imports fuel st prog ip himp] at h
  cases hdc : st.check_duplicate_circuits prog.circuits with
  | mk s1 oe1 =>
    rw [hdc] at h
    cases oe1 with
    | some e1 => simp at h
    | none =>
      simp only [] at h
      have h1 : (s1.check_duplicate_functions prog.functions).1 = st1 :=
        congrArg Prod.fst h
      have h0 : (st.check_duplicate_circuits prog.circuits).1 = s1 := by rw [hdc]
      rw [← h1, check_duplicate_functions_eq,
        checkDupNames_preserve_other _ s1 _ n (by rwa [map_fst_fun]), ← h0,
        check_duplicate_circuits_eq,
        checkDupNames_preserve_other _ st _ n (by rwa [map_fst_circ])]

/-- Claim C4 as amended: for a single-module import statement whose
module has no imports of its own, insert_import is exactly the
duplicate check followed by the unknown-type check: it succeeds if and
only if both checks do, its resulting table is the table those checks
produce (so the imported module declarations are inserted under their
original names, every declared circuit being bound in the circuits
map), and only the aliased symbol binding is skipped: a fresh alias
name remains unbound after a successful call. -/
theorem claim_C4_insert_import_checks (fuel : Nat) (st : SymbolTable) (name : Name)
    (sym : ImportSymbol) (imp : ImportStatement) (ip : ImportParser) (prog : Program)
    (a : Identifier)
    (hs : ImportedSymbols.from imp = [(name, sym)])
    (hg : ip.get_import name = some prog)
    (himp : prog.imports = []) :
    ((SymbolTable.insert_import (fuel + 1) st imp ip).2 = none ↔
       (SymbolTable.check_duplicate_program fuel st prog ip).2 = none ∧
       ((SymbolTable.check_duplicate_program fuel st prog
           ip).1.check_unknown_types_program prog).2 = none) ∧
    ((SymbolTable.insert_import (fuel + 1) st imp ip).2 = none →
       (SymbolTable.insert_import (fuel + 1) st imp ip).1 =
         ((SymbolTable.check_duplicate_program fuel st prog
             ip).1.check_unknown_types_program prog).1) ∧
    ((SymbolTable.insert_import (fuel + 1) st imp ip).2 = none →
       ∀ p ∈ prog.circuits,
         (lookupA (SymbolTable.insert_import (fuel + 1) st imp ip).1.circuitsMap
           p.2.circuit_name.name).isSome) ∧
    (sym.alias0 = some a →
     a.name ∉ prog.circuits.map (fun p => p.1.name) →
     a.name ∉ prog.functions.map (fun p => p.1.name) →
     lookupA st.names a.name = none →
     (SymbolTable.insert_import (fuel + 1) st imp ip).2 = none →
     lookupA (SymbolTable.insert_import (fuel + 1) st imp ip).1.names a.name = none) := by
  have hsing := insert_import_singleton fuel st name sym imp ip prog hs hg
  cases hc : SymbolTable.check_duplicate_program fuel st prog ip with
  | mk st1 oe =>
    rw [hc] at hsing
    cases oe with
    | some e =>
      simp only [] at hsing
      refine ⟨?_, ?_, ?_, ?_⟩
      · rw [hsing]
        simp
      · intro hok
        rw [hsing] at hok
        exact absurd hok (by simp)
      · intro hok
        rw [hsing] at hok
        exact absurd hok (by simp)
      · intro _ _ _ _ hok
        rw [hsing] at hok
        exact absurd hok (by simp)
    | none =>
      simp only [] at hsing
      cases hu : st1.check_unknown_types_program prog with
      | mk st2 oe2 =>
        rw [hu] at hsing
        cases oe2 with
        | some e2 =>
          simp only [] at hsing
          refine ⟨?_, ?_, ?_, ?_⟩
          · rw [hsing]
            simp
          · intro hok
            rw [hsing] at hok
            exact absurd hok (by simp)
          · intro hok
            rw [hsing] at hok
            exact absurd hok (by simp)
          · intro _ _ _ _ hok
            rw [hsing] at hok
            exact absurd hok (by simp)
        | none =>
          simp only [] at hsing
          rw [insert_import_loop_nil] at hsing
          have hshape := cutp_ok st1 prog st2 hu
          refine ⟨?_, ?_, ?_, ?_⟩
          · rw [hsing]
            simp
          · intro _
            rw [hsing]
          · intro _ p hp
            rw [hsing]
            exact hshape.2 p hp
          · intro halias hnc hnf hnames _
            rw [hsing]
            show lookupA st2.names a.name = none
            rw [hshape.1]
            rw [cdp_ok_names fuel st prog ip st1 himp hc a.name hnc hnf]
            exact hnames

/-- Witness for the amended claim C4: importing circuit C as alias D
succeeds and leaves D unbound. -/
theorem claim_C4_witness :
    ImportedSymbols.from imp0 = [("m", symC)] ∧
    ip0.get_import "m" = some progC ∧
    progC.imports = [] ∧
    symC.alias0 = some ⟨"D"⟩ ∧
    ((SymbolTable.insert_import 1 (SymbolTable.root [] [] []) imp0 ip0).2 = none →
      lookupA (SymbolTable.insert_import 1
        (SymbolTable.root [] [] []) imp0 ip0).1.names "D" = none) := by
  refine ⟨rfl, by decide, rfl, rfl, ?_⟩
  have h := claim_C4_insert_import_checks 0 (SymbolTable.root [] [] []) "m" symC imp0
    ip0 progC ⟨"D"⟩ rfl (by decide) rfl
  exact h.2.2.2 rfl (by decide) (by decide) rfl

end Leo
